import Mathlib

/-!
Shallow embedding of the Car-Game repository (`CarGame.py`).

The program is a single-file pygame racing game.  We embed its state and
operations over the rationals: Python floats become `ℚ`, Python ints become
`ℤ` (stage) and `ℕ` (waypoint index, mask pixel coordinates).  The external
primitives the code calls — `math.cos`/`math.sin` of a heading given in
degrees, `math.degrees(math.atan _)`, the sprite dimensions of the loaded
car image, and the pygame mask-overlap queries performed by
`AbstractCar.collides_with` against the track-border and finish-line masks —
are gathered in an explicit `World` environment, so every operation of the
game is a computable function of the state and that environment.
-/

/-- State of `AbstractCar` (`CarGame.py` lines 62-112): `max_speed`, `speed`,
`turn_speed`, `heading` (degrees), and the position `(x_pos, y_pos)`.
`self.acceleration` is set to `0.1` in `__init__` and never reassigned, so it
is embedded as the constant `AbstractCar.acceleration`. -/
structure AbstractCar where
  max_speed : ℚ
  speed : ℚ
  turn_speed : ℚ
  heading : ℚ
  x_pos : ℚ
  y_pos : ℚ
deriving DecidableEq, Repr

/-- External environment: trigonometric primitives (`cosd h = cos (radians h)`,
`sind h = sin (radians h)`, `atanDeg q = degrees (atan q)`), the AI sprite's
width and height (from the loaded image), and the three mask-overlap queries
of `handle_collision` (`collides_with` depends only on the car's constant
sprite and its current state, so each query is a function of the car state
returning the point of intersection inside the target mask, if any). -/
structure World where
  cosd : ℚ → ℚ
  sind : ℚ → ℚ
  atanDeg : ℚ → ℚ
  aiSpriteW : ℚ
  aiSpriteH : ℚ
  playerBorderPoi : AbstractCar → Option (ℕ × ℕ)
  playerFinishPoi : AbstractCar → Option (ℕ × ℕ)
  aiFinishPoi : AbstractCar → Option (ℕ × ℕ)

/-- Constant `self.acceleration = 0.1` (line 70). -/
def AbstractCar.acceleration : ℚ := 1/10

/-- Lines 73-77: `rotate(left, right)` adds `turn_speed` to the heading when
`left`, else subtracts it when `right`. -/
def AbstractCar.rotate (left right : Bool) (c : AbstractCar) : AbstractCar :=
  if left then { c with heading := c.heading + c.turn_speed }
  else if right then { c with heading := c.heading - c.turn_speed }
  else c

/-- Lines 94-99: `update_motion` subtracts `cos(radians heading) * speed` from
`y_pos` and `sin(radians heading) * speed` from `x_pos`. -/
def AbstractCar.update_motion (w : World) (c : AbstractCar) : AbstractCar :=
  let vert := w.cosd c.heading * c.speed
  let horiz := w.sind c.heading * c.speed
  { c with y_pos := c.y_pos - vert, x_pos := c.x_pos - horiz }

/-- Lines 84-86: `speed = min(speed + acceleration, max_speed)`, then
`update_motion`. -/
def AbstractCar.accelerate_forward (w : World) (c : AbstractCar) : AbstractCar :=
  AbstractCar.update_motion w
    { c with speed := min (c.speed + AbstractCar.acceleration) c.max_speed }

/-- Lines 89-91: `speed = max(speed - acceleration, -max_speed / 2)`, then
`update_motion`. -/
def AbstractCar.accelerate_backward (w : World) (c : AbstractCar) : AbstractCar :=
  AbstractCar.update_motion w
    { c with speed := max (c.speed - AbstractCar.acceleration) (-c.max_speed / 2) }

/-- Lines 109-112: `reset_state` returns the position to the class's
`START_POSITION`, the heading to `0` and the speed to `0`. -/
def AbstractCar.reset_state (start : ℚ × ℚ) (c : AbstractCar) : AbstractCar :=
  { c with x_pos := start.1, y_pos := start.2, heading := 0, speed := 0 }

/-- `PlayerCar.START_POSITION = (180, 200)` (line 117). -/
def PlayerCar.START_POSITION : ℚ × ℚ := (180, 200)

/-- `PlayerCar(4, 4)` construction (lines 63-70 with line 265): speed starts
at `0`, position at the player's start position, heading `0`. -/
def PlayerCar.init (max_speed turn_speed : ℚ) : AbstractCar :=
  { max_speed := max_speed, speed := 0, turn_speed := turn_speed, heading := 0,
    x_pos := PlayerCar.START_POSITION.1, y_pos := PlayerCar.START_POSITION.2 }

/-- Lines 120-122: `apply_friction` sets
`speed = max(speed - acceleration / 2, 0)`, then `update_motion`. -/
def PlayerCar.apply_friction (w : World) (c : AbstractCar) : AbstractCar :=
  AbstractCar.update_motion w
    { c with speed := max (c.speed - AbstractCar.acceleration / 2) 0 }

/-- Lines 125-127: `bounce` negates the speed, then `update_motion`. -/
def PlayerCar.bounce (w : World) (c : AbstractCar) : AbstractCar :=
  AbstractCar.update_motion w { c with speed := -c.speed }

/-- `reset_state` on the player uses `PlayerCar.START_POSITION`. -/
def PlayerCar.reset_state (c : AbstractCar) : AbstractCar :=
  AbstractCar.reset_state PlayerCar.START_POSITION c

/-- State of `ComputerCar` (lines 130-193): the inherited car state plus the
waypoint list and the current waypoint index. -/
structure ComputerCar where
  car : AbstractCar
  waypoints : List (ℚ × ℚ)
  waypoint_index : ℕ
deriving DecidableEq, Repr

/-- `ComputerCar.START_POSITION = (150, 200)` (line 132). -/
def ComputerCar.START_POSITION : ℚ × ℚ := (150, 200)

/-- `ComputerCar.__init__` (lines 134-138): the base constructor, then
`waypoint_index = 0` and `speed = max_speed`. -/
def ComputerCar.init (max_speed turn_speed : ℚ) (waypoints : List (ℚ × ℚ)) :
    ComputerCar :=
  { car := { max_speed := max_speed, speed := max_speed, turn_speed := turn_speed,
             heading := 0, x_pos := ComputerCar.START_POSITION.1,
             y_pos := ComputerCar.START_POSITION.2 },
    waypoints := waypoints, waypoint_index := 0 }

/-- Lines 151-162 of `compute_angle`, with `degrees` pushed inward: the desired
heading in degrees toward target `(tx, ty)` from `(x, y)`.  In the source the
angle is computed in radians (`π/2` when `dy == 0`, else `atan (dx/dy)`, plus
`π` when `ty > y`) and converted by `math.degrees`; since
`degrees (a + π) = degrees a + 90 + 90` and `degrees (π/2) = 90`, this equals
the radian computation composed with `degrees`, with
`atanDeg q = degrees (atan q)`. -/
def ComputerCar.desiredDeg (w : World) (x y tx ty : ℚ) : ℚ :=
  (if ty - y = 0 then 90 else w.atanDeg ((tx - x) / (ty - y))) +
    (if y < ty then 180 else 0)

/-- Lines 162-170 of `compute_angle`: `angle_delta = heading - desired`;
if `angle_delta >= 180` subtract `360`; then move the heading by
`min(turn_speed, |angle_delta|)` down when `angle_delta > 0`, else up. -/
def ComputerCar.steer (turn heading desired : ℚ) : ℚ :=
  let angle_delta := heading - desired
  let angle_delta := if 180 ≤ angle_delta then angle_delta - 360 else angle_delta
  if 0 < angle_delta then heading - min turn |angle_delta|
  else heading + min turn |angle_delta|

/-- Lines 150-170: `compute_angle` reads `waypoints[waypoint_index]` (an
`IndexError`, modelled as `none`, if out of bounds) and steers the heading
toward the desired angle for that target. -/
def ComputerCar.compute_angle? (w : World) (o : ComputerCar) : Option ComputerCar :=
  match o.waypoints[o.waypoint_index]? with
  | none => none
  | some t =>
      let h' := ComputerCar.steer o.car.turn_speed o.car.heading
        (ComputerCar.desiredDeg w o.car.x_pos o.car.y_pos t.1 t.2)
      some { o with car := { o.car with heading := h' } }

/-- The `pygame.Rect(x, y, w, h).collidepoint(tx, ty)` test of line 175-177:
a point on the left or top edge is inside, on the right or bottom edge is
outside. -/
def ComputerCar.rectContains (w : World) (x y tx ty : ℚ) : Bool :=
  decide (x ≤ tx) && decide (tx < x + w.aiSpriteW) &&
    decide (y ≤ ty) && decide (ty < y + w.aiSpriteH)

/-- Lines 173-178: `advance_waypoint` reads `waypoints[waypoint_index]`
(modelled as `none` if out of bounds) and increments `waypoint_index` when the
sprite rectangle at the current position contains the target point. -/
def ComputerCar.advance_waypoint? (w : World) (o : ComputerCar) : Option ComputerCar :=
  match o.waypoints[o.waypoint_index]? with
  | none => none
  | some t =>
      if ComputerCar.rectContains w o.car.x_pos o.car.y_pos t.1 t.2 then
        some { o with waypoint_index := o.waypoint_index + 1 }
      else some o

/-- Lines 181-187: the `update_motion` override returns immediately when
`waypoint_index >= len(waypoints)`; otherwise it runs `compute_angle`, then
`advance_waypoint`, then the inherited positional update. -/
def ComputerCar.update_motion? (w : World) (o : ComputerCar) : Option ComputerCar :=
  if o.waypoints.length ≤ o.waypoint_index then some o
  else
    match ComputerCar.compute_angle? w o with
    | none => none
    | some o1 =>
        match ComputerCar.advance_waypoint? w o1 with
        | none => none
        | some o2 => some { o2 with car := AbstractCar.update_motion w o2.car }

/-- `reset_state` on the AI car is the inherited `AbstractCar.reset_state`
with the AI start position: it does not touch `waypoints` or
`waypoint_index`, and it sets `speed` to `0`. -/
def ComputerCar.reset_state (o : ComputerCar) : ComputerCar :=
  { o with car := AbstractCar.reset_state ComputerCar.START_POSITION o.car }

/-- Lines 190-193: `advance_level(stage)` resets the car state, then sets
`speed = max_speed + (stage - 1) * 0.2` and `waypoint_index = 0`. -/
def ComputerCar.advance_level (o : ComputerCar) (stage : ℤ) : ComputerCar :=
  let o' := ComputerCar.reset_state o
  let c' := { o'.car with speed := o'.car.max_speed + ((stage : ℚ) - 1) * (1/5) }
  { o' with car := c', waypoint_index := 0 }

/-- Race state `GameInfo` (lines 30-59): stage, the in-progress flag, and the
stage start time (a wall-clock value, embedded as a rational). -/
structure GameInfo where
  stage : ℤ
  in_progress : Bool
  stage_start_time : ℚ
deriving DecidableEq, Repr

/-- `GameInfo.LEVELS = 10` (line 31). -/
def GameInfo.LEVELS : ℤ := 10

/-- `GameInfo()` construction (lines 33-36 with line 267). -/
def GameInfo.init : GameInfo :=
  { stage := 1, in_progress := false, stage_start_time := 0 }

/-- Lines 39-41: `advance_level` increments the stage and clears the
in-progress flag. -/
def GameInfo.advance_level (g : GameInfo) : GameInfo :=
  { g with stage := g.stage + 1, in_progress := false }

/-- Lines 44-47: `reset_state` returns to stage `1`, not in progress,
timer cleared. -/
def GameInfo.reset_state (_g : GameInfo) : GameInfo :=
  { stage := 1, in_progress := false, stage_start_time := 0 }

/-- Lines 49-50: `is_game_finished` is `stage > LEVELS`. -/
def GameInfo.is_game_finished (g : GameInfo) : Bool :=
  decide (GameInfo.LEVELS < g.stage)

/-- Lines 52-54: `start_stage` sets the in-progress flag and records the
current time. -/
def GameInfo.start_stage (now : ℚ) (g : GameInfo) : GameInfo :=
  { g with in_progress := true, stage_start_time := now }

/-- Lines 250-257 of `handle_collision`: the player finish-line check.  When
the player's mask overlaps the finish mask, a point of intersection with
vertical coordinate `0` bounces the player; otherwise the race state advances
a level, the player is reset, and the AI advances to the already-incremented
stage. -/
def finish_check (w : World) (p : AbstractCar) (o : ComputerCar) (g : GameInfo) :
    AbstractCar × ComputerCar × GameInfo :=
  match w.playerFinishPoi p with
  | none => (p, o, g)
  | some poi =>
      if poi.2 = 0 then (PlayerCar.bounce w p, o, g)
      else
        let g' := GameInfo.advance_level g
        (PlayerCar.reset_state p, ComputerCar.advance_level o g'.stage, g')

/-- Lines 238-257: `handle_collision`.  First the track-border check bounces
the player; then, when the AI car overlaps the finish mask, the race state and
both cars are reset (the message display and 5-second pause have no effect on
the modelled state); finally the player finish-line check of `finish_check`
runs on the resulting states. -/
def handle_collision (w : World) (p : AbstractCar) (o : ComputerCar) (g : GameInfo) :
    AbstractCar × ComputerCar × GameInfo :=
  let p1 := if (w.playerBorderPoi p).isSome then PlayerCar.bounce w p else p
  if (w.aiFinishPoi o.car).isSome then
    finish_check w (PlayerCar.reset_state p1) (ComputerCar.reset_state o)
      (GameInfo.reset_state g)
  else
    finish_check w p1 o g

/-- Keyboard state for one tick (lines 217-232): the four movement keys. -/
structure Keys where
  a : Bool
  d : Bool
  w : Bool
  s : Bool
deriving DecidableEq, Repr

/-- Lines 216-235: `move_player` rotates on `a`/`d`, accelerates on `w`,
reverses on `s`, and applies friction when neither `w` nor `s` is held. -/
def move_player (wd : World) (k : Keys) (p : AbstractCar) : AbstractCar :=
  let p1 := if k.a then AbstractCar.rotate true false p else p
  let p2 := if k.d then AbstractCar.rotate false true p1 else p1
  let p3 := if k.w then AbstractCar.accelerate_forward wd p2 else p2
  let p4 := if k.s then AbstractCar.accelerate_backward wd p3 else p3
  if k.w || k.s then p4 else PlayerCar.apply_friction wd p4

/-- One iteration of the main loop (lines 270-305) as it acts on the modelled
state: the wait-for-start inner loop (which can only exit after
`start_stage` has run, or by quitting the program), then `move_player`, the
AI `update_motion` (whose inherited fallback is unreachable — see the totality
theorem), `handle_collision`, and the end-of-game reset when
`is_game_finished`.  Rendering and the frame-rate clock do not touch this
state. -/
def tick (wd : World) (k : Keys) (now : ℚ) (p : AbstractCar) (o : ComputerCar)
    (g : GameInfo) : AbstractCar × ComputerCar × GameInfo :=
  let g1 := if g.in_progress then g else GameInfo.start_stage now g
  let p1 := move_player wd k p
  let o1 := (ComputerCar.update_motion? wd o).getD o
  let r := handle_collision wd p1 o1 g1
  if GameInfo.is_game_finished r.2.2 then
    (PlayerCar.reset_state r.1, ComputerCar.reset_state r.2.1,
      GameInfo.reset_state r.2.2)
  else r

/-- The `WAYPOINTS` constant of line 27. -/
def WAYPOINTS : List (ℚ × ℚ) :=
  [(175, 119), (110, 70), (56, 133), (70, 481), (318, 731), (404, 680),
   (418, 521), (507, 475), (600, 551), (613, 715), (736, 713), (734, 399),
   (611, 357), (409, 343), (433, 257), (697, 258), (738, 123), (581, 71),
   (303, 78), (275, 377), (176, 388), (178, 260)]

/-- The documented speed invariant (spec data model):
`speed ∈ [-max_speed/2, max_speed]`. -/
def speed_in_bounds (c : AbstractCar) : Prop :=
  -c.max_speed / 2 ≤ c.speed ∧ c.speed ≤ c.max_speed

instance (c : AbstractCar) : Decidable (speed_in_bounds c) := by
  unfold speed_in_bounds; infer_instance

/-! Concrete fixtures used by witnesses and counterexamples. -/

/-- A trivial environment: zero trigonometric primitives (`cos`/`sin`/`atan`
evaluated nowhere relevant, or at `0` where `atan 0 = 0` holds of the real
function as well), a unit sprite, and no mask overlaps. -/
def wd0 : World :=
  { cosd := fun _ => 0, sind := fun _ => 0, atanDeg := fun _ => 0,
    aiSpriteW := 1, aiSpriteH := 1,
    playerBorderPoi := fun _ => none, playerFinishPoi := fun _ => none,
    aiFinishPoi := fun _ => none }

/-- The player car as constructed at program start (line 265). -/
def p0 : AbstractCar := PlayerCar.init 4 4

/-- The AI car as constructed at program start (line 266). -/
def o0 : ComputerCar := ComputerCar.init 2 4 WAYPOINTS

/-- The race state as constructed at program start (line 267). -/
def g0 : GameInfo := GameInfo.init

/-- An AI car with an empty waypoint list. -/
def oEmpty : ComputerCar := ComputerCar.init 2 4 []

/-! Helper lemmas about the AI motion update. -/

/-- When the current waypoint exists, `compute_angle` succeeds and only the
heading changes, to the steered value. -/
lemma compute_angle?_eq (wd : World) (o : ComputerCar) (t : ℚ × ℚ)
    (ht : o.waypoints[o.waypoint_index]? = some t) :
    ComputerCar.compute_angle? wd o =
      some { o with car := { o.car with
        heading := ComputerCar.steer o.car.turn_speed o.car.heading
          (ComputerCar.desiredDeg wd o.car.x_pos o.car.y_pos t.1 t.2) } } := by
  unfold ComputerCar.compute_angle?
  rw [ht]

/-- When the current waypoint exists, `advance_waypoint` succeeds, changes no
car field, and moves the index to itself or its successor. -/
lemma advance_waypoint?_spec (wd : World) (o : ComputerCar) (t : ℚ × ℚ)
    (ht : o.waypoints[o.waypoint_index]? = some t) :
    ∃ o', ComputerCar.advance_waypoint? wd o = some o' ∧ o'.car = o.car ∧
      o'.waypoints = o.waypoints ∧ o.waypoint_index ≤ o'.waypoint_index := by
  cases hR : ComputerCar.rectContains wd o.car.x_pos o.car.y_pos t.1 t.2 with
  | true =>
      refine ⟨{ o with waypoint_index := o.waypoint_index + 1 }, ?_, rfl, rfl,
        Nat.le_succ _⟩
      simp [ComputerCar.advance_waypoint?, ht, hR]
  | false =>
      refine ⟨o, ?_, rfl, rfl, le_refl _⟩
      simp [ComputerCar.advance_waypoint?, ht, hR]

/-- The AI `update_motion` always succeeds; it preserves speed, max speed,
turn speed and the waypoint list, and never decreases the waypoint index. -/
lemma update_motion?_spec (wd : World) (o : ComputerCar) :
    ∃ o', ComputerCar.update_motion? wd o = some o' ∧
      o'.car.speed = o.car.speed ∧ o'.car.max_speed = o.car.max_speed ∧
      o'.car.turn_speed = o.car.turn_speed ∧
      o'.waypoints = o.waypoints ∧ o.waypoint_index ≤ o'.waypoint_index := by
  by_cases hlen : o.waypoints.length ≤ o.waypoint_index
  · refine ⟨o, ?_, rfl, rfl, rfl, rfl, le_refl _⟩
    unfold ComputerCar.update_motion?
    rw [if_pos hlen]
  · push_neg at hlen
    obtain ⟨t, ht⟩ : ∃ t, o.waypoints[o.waypoint_index]? = some t :=
      ⟨_, List.getElem?_eq_getElem hlen⟩
    have h1 := compute_angle?_eq wd o t ht
    obtain ⟨o2, h2, hcar, hwps, hidx⟩ :=
      advance_waypoint?_spec wd
        { o with car := { o.car with
            heading := ComputerCar.steer o.car.turn_speed o.car.heading
              (ComputerCar.desiredDeg wd o.car.x_pos o.car.y_pos t.1 t.2) } }
        t ht
    refine ⟨{ o2 with car := AbstractCar.update_motion wd o2.car }, ?_, ?_, ?_, ?_, ?_, ?_⟩
    · unfold ComputerCar.update_motion?
      rw [if_neg (not_le.mpr hlen)]
      simp only [h1, h2]
    · show (AbstractCar.update_motion wd o2.car).speed = o.car.speed
      rw [show (AbstractCar.update_motion wd o2.car).speed = o2.car.speed from rfl, hcar]
    · show (AbstractCar.update_motion wd o2.car).max_speed = o.car.max_speed
      rw [show (AbstractCar.update_motion wd o2.car).max_speed = o2.car.max_speed from rfl,
        hcar]
    · show (AbstractCar.update_motion wd o2.car).turn_speed = o.car.turn_speed
      rw [show (AbstractCar.update_motion wd o2.car).turn_speed = o2.car.turn_speed from rfl,
        hcar]
    · exact hwps
    · exact hidx

/-- The steering step lands exactly on the desired heading when the raw
difference is below the wrap threshold and within the turn rate. -/
lemma steer_eq_desired (turn H D : ℚ) (h180 : H - D < 180) (hle : |H - D| ≤ turn) :
    ComputerCar.steer turn H D = D := by
  simp only [ComputerCar.steer]
  rw [if_neg (not_le.mpr h180)]
  by_cases hpos : 0 < H - D
  · rw [if_pos hpos, abs_of_pos hpos, min_eq_right (abs_of_pos hpos ▸ hle)]
    ring
  · rw [if_neg hpos, abs_of_nonpos (le_of_not_lt hpos),
      min_eq_right (abs_of_nonpos (le_of_not_lt hpos) ▸ hle)]
    ring

/-- The steering step moves by exactly the turn rate toward the desired
heading when the raw difference is below the wrap threshold and exceeds the
turn rate. -/
lemma steer_move (turn H D : ℚ) (h180 : H - D < 180) (hturn : 0 ≤ turn)
    (hgt : turn < |H - D|) :
    (0 < H - D → ComputerCar.steer turn H D = H - turn) ∧
    (H - D < 0 → ComputerCar.steer turn H D = H + turn) ∧
    |ComputerCar.steer turn H D - D| = |H - D| - turn := by
  have hmin : min turn |H - D| = turn := min_eq_left (le_of_lt hgt)
  by_cases hpos : 0 < H - D
  · have h1 : ComputerCar.steer turn H D = H - turn := by
      simp only [ComputerCar.steer]
      rw [if_neg (not_le.mpr h180), if_pos hpos, hmin]
    have habs : |H - D| = H - D := abs_of_pos hpos
    refine ⟨fun _ => h1, fun h => absurd h (by linarith), ?_⟩
    rw [h1, habs]
    rw [habs] at hgt
    rw [abs_of_pos (by linarith : (0:ℚ) < H - turn - D)]
    ring
  · have hneg : H - D < 0 := by
      rcases lt_trichotomy (H - D) 0 with h | h | h
      · exact h
      · rw [h, abs_zero] at hgt
        linarith
      · exact absurd h hpos
    have h1 : ComputerCar.steer turn H D = H + turn := by
      simp only [ComputerCar.steer]
      rw [if_neg (not_le.mpr h180), if_neg hpos, hmin]
    have habs : |H - D| = -(H - D) := abs_of_neg hneg
    refine ⟨fun h => absurd h hpos, fun _ => h1, ?_⟩
    rw [h1, habs]
    rw [habs] at hgt
    rw [abs_of_neg (by linarith : H + turn - D < 0)]
    ring

/-- C1 (amended).  The speed invariant `speed ∈ [-max_speed/2, max_speed]` is
preserved by `rotate`, `accelerate_forward`, `accelerate_backward`,
`apply_friction`, `update_motion` (both the shared one and the AI override)
and `reset_state`; `bounce` preserves it provided the prior speed is at most
`max_speed/2`, and the AI's `advance_level` preserves it provided the stage is
`1` (for any later stage it sets the speed above `max_speed`). -/
theorem c1_speed_invariant (wd : World) (l r : Bool) (start : ℚ × ℚ)
    (c : AbstractCar) (o : ComputerCar) (stage : ℤ)
    (hc : speed_in_bounds c) (ho : speed_in_bounds o.car) :
    speed_in_bounds (AbstractCar.rotate l r c) ∧
    speed_in_bounds (AbstractCar.accelerate_forward wd c) ∧
    speed_in_bounds (AbstractCar.accelerate_backward wd c) ∧
    speed_in_bounds (PlayerCar.apply_friction wd c) ∧
    speed_in_bounds (AbstractCar.update_motion wd c) ∧
    speed_in_bounds (AbstractCar.reset_state start c) ∧
    (c.speed ≤ c.max_speed / 2 → speed_in_bounds (PlayerCar.bounce wd c)) ∧
    speed_in_bounds ((ComputerCar.update_motion? wd o).getD o).car ∧
    (stage = 1 → speed_in_bounds (ComputerCar.advance_level o stage).car) := by
  obtain ⟨hlo, hhi⟩ := hc
  have hmax : 0 ≤ c.max_speed := by linarith
  refine ⟨?_, ?_, ?_, ?_, ?_, ?_, ?_, ?_, ?_⟩
  · cases l <;> cases r <;> exact ⟨hlo, hhi⟩
  · constructor
    · show -c.max_speed / 2 ≤ min (c.speed + (1/10 : ℚ)) c.max_speed
      exact le_min (by linarith) (by linarith)
    · show min (c.speed + (1/10 : ℚ)) c.max_speed ≤ c.max_speed
      exact min_le_right _ _
  · constructor
    · show -c.max_speed / 2 ≤ max (c.speed - (1/10 : ℚ)) (-c.max_speed / 2)
      exact le_max_right _ _
    · show max (c.speed - (1/10 : ℚ)) (-c.max_speed / 2) ≤ c.max_speed
      exact max_le (by linarith) (by linarith)
  · constructor
    · show -c.max_speed / 2 ≤ max (c.speed - (1/10 : ℚ) / 2) 0
      exact le_trans (by linarith) (le_max_right _ _)
    · show max (c.speed - (1/10 : ℚ) / 2) 0 ≤ c.max_speed
      exact max_le (by linarith) hmax
  · exact ⟨hlo, hhi⟩
  · constructor
    · show -c.max_speed / 2 ≤ (0 : ℚ)
      linarith
    · show (0 : ℚ) ≤ c.max_speed
      exact hmax
  · intro h
    constructor
    · show -c.max_speed / 2 ≤ -c.speed
      linarith
    · show -c.speed ≤ c.max_speed
      linarith
  · obtain ⟨o', he, hs, hm, -, -, -⟩ := update_motion?_spec wd o
    rw [he]
    show speed_in_bounds o'.car
    unfold speed_in_bounds at ho ⊢
    rw [hs, hm]
    exact ho
  · intro hstage
    subst hstage
    obtain ⟨holo, hohi⟩ := ho
    constructor
    · show -o.car.max_speed / 2 ≤ o.car.max_speed + (((1 : ℤ) : ℚ) - 1) * (1/5)
      push_cast
      linarith
    · show o.car.max_speed + (((1 : ℤ) : ℚ) - 1) * (1/5) ≤ o.car.max_speed
      push_cast
      linarith

/-- A player-style car at full speed: the invariant holds before a bounce. -/
def cFast : AbstractCar := ⟨4, 4, 4, 0, 0, 0⟩

/-- C1 counterexample: at `speed = max_speed = 4` the invariant holds, yet
`bounce` takes the speed to `-4 < -max_speed/2`; and from stage `1` the AI's
`advance_level 2` sets the speed to `2 + 0.2 > max_speed = 2`. -/
theorem c1_counterexample :
    speed_in_bounds cFast ∧ ¬ speed_in_bounds (PlayerCar.bounce wd0 cFast) ∧
    speed_in_bounds o0.car ∧
    ¬ speed_in_bounds (ComputerCar.advance_level o0 2).car := by
  refine ⟨?_, ?_, ?_, ?_⟩
  · norm_num [speed_in_bounds, cFast]
  · norm_num [speed_in_bounds, PlayerCar.bounce, AbstractCar.update_motion, wd0, cFast]
  · norm_num [speed_in_bounds, o0, ComputerCar.init]
  · norm_num [speed_in_bounds, ComputerCar.advance_level, ComputerCar.reset_state,
      AbstractCar.reset_state, o0, ComputerCar.init, ComputerCar.START_POSITION]

/-- Witness for the amended C1 at the program's initial states. -/
theorem c1_witness :
    speed_in_bounds (AbstractCar.accelerate_forward wd0 p0) ∧
    speed_in_bounds (PlayerCar.bounce wd0 p0) ∧
    speed_in_bounds (ComputerCar.advance_level o0 1).car := by
  have h := c1_speed_invariant wd0 true false PlayerCar.START_POSITION p0 o0 1
    (by norm_num [speed_in_bounds, p0, PlayerCar.init])
    (by norm_num [speed_in_bounds, o0, ComputerCar.init])
  exact ⟨h.2.1, h.2.2.2.2.2.2.1 (by norm_num [p0, PlayerCar.init]),
    h.2.2.2.2.2.2.2.2 rfl⟩

/-- C6: `is_game_finished` holds exactly when the stage exceeds `10`, and
`advance_level` increments the stage by one, clears the in-progress flag, and
leaves the stage start time unchanged. -/
theorem c6_game_info (g : GameInfo) :
    (GameInfo.is_game_finished g = true ↔ 10 < g.stage) ∧
    GameInfo.advance_level g =
      { stage := g.stage + 1, in_progress := false,
        stage_start_time := g.stage_start_time } := by
  constructor
  · simp [GameInfo.is_game_finished, GameInfo.LEVELS]
  · rfl

/-- C8 (amended): `accelerate_forward` always sets the speed to
`min (speed + acceleration) max_speed`, and provided the prior speed is at
most `max_speed` the new speed lies in `[previous speed, max_speed]`. -/
theorem c8_accelerate_forward_speed (wd : World) (c : AbstractCar)
    (h : c.speed ≤ c.max_speed) :
    (AbstractCar.accelerate_forward wd c).speed
        = min (c.speed + AbstractCar.acceleration) c.max_speed ∧
    c.speed ≤ (AbstractCar.accelerate_forward wd c).speed ∧
    (AbstractCar.accelerate_forward wd c).speed ≤ c.max_speed := by
  refine ⟨rfl, ?_, ?_⟩
  · show c.speed ≤ min (c.speed + (1/10 : ℚ)) c.max_speed
    exact le_min (by linarith) h
  · show min (c.speed + (1/10 : ℚ)) c.max_speed ≤ c.max_speed
    exact min_le_right _ _

/-- A car whose speed exceeds its maximum speed, as `advance_level` produces
for the AI at stages above `1`. -/
def cBad : AbstractCar := ⟨4, 5, 4, 0, 0, 0⟩

/-- C8 counterexample: from `speed = 5 > max_speed = 4`, `accelerate_forward`
drops the speed to `4`, strictly below the previous speed. -/
theorem c8_counterexample :
    cBad.speed = 5 ∧ cBad.max_speed = 4 ∧
    (AbstractCar.accelerate_forward wd0 cBad).speed < cBad.speed := by
  refine ⟨rfl, rfl, ?_⟩
  show min (cBad.speed + (1/10 : ℚ)) cBad.max_speed < cBad.speed
  norm_num [cBad, min_def]

/-- Witness for the amended C8 at the initial player car. -/
theorem c8_witness :
    p0.speed ≤ (AbstractCar.accelerate_forward wd0 p0).speed ∧
    (AbstractCar.accelerate_forward wd0 p0).speed ≤ p0.max_speed := by
  have h := c8_accelerate_forward_speed wd0 p0 (by norm_num [p0, PlayerCar.init])
  exact ⟨h.2.1, h.2.2⟩

/-- C9: when the waypoint index has reached the length of the waypoint list,
the AI `update_motion` returns the state unchanged (position, heading, speed
and waypoint index untouched). -/
theorem c9_exhausted_update_noop (wd : World) (o : ComputerCar)
    (h : o.waypoints.length ≤ o.waypoint_index) :
    ComputerCar.update_motion? wd o = some o := by
  unfold ComputerCar.update_motion?
  rw [if_pos h]

/-- Witness for C9: an AI car with no waypoints. -/
theorem c9_witness : ComputerCar.update_motion? wd0 oEmpty = some oEmpty :=
  c9_exhausted_update_noop wd0 oEmpty (by decide)

/-- C10: when neither the border overlap, the AI finish overlap, nor the
player finish overlap is present, `handle_collision` changes nothing. -/
theorem c10_no_overlap_noop (wd : World) (p : AbstractCar) (o : ComputerCar)
    (g : GameInfo) (hb : wd.playerBorderPoi p = none)
    (hai : wd.aiFinishPoi o.car = none) (hpf : wd.playerFinishPoi p = none) :
    handle_collision wd p o g = (p, o, g) := by
  simp [handle_collision, finish_check, hb, hai, hpf]

/-- Witness for C10 at the initial program state with no overlaps. -/
theorem c10_witness : handle_collision wd0 p0 o0 g0 = (p0, o0, g0) :=
  c10_no_overlap_noop wd0 p0 o0 g0 rfl rfl rfl

/-- Resetting the player erases any effect of a preceding bounce: `reset_state`
overwrites position, heading and speed, and `bounce` touches nothing else. -/
lemma reset_after_bounce (wd : World) (p : AbstractCar) :
    PlayerCar.reset_state (PlayerCar.bounce wd p) = PlayerCar.reset_state p := rfl

/-- C2: with no border overlap and no AI finish overlap, a player finish
overlap at point `poi` bounces the player (speed negated, race state — in
particular the stage — unchanged) when the overlap's vertical coordinate is
`0`; when it is positive, the stage increases by one, the player is reset to
its start with heading `0` and speed `0`, and the AI advances to the new
stage: speed `max_speed + (newStage - 1) * 0.2` and waypoint index `0`; from
stage `1` the AI speed becomes `max_speed + 0.2`. -/
theorem c2_player_finish (wd : World) (p : AbstractCar) (o : ComputerCar)
    (g : GameInfo) (poi : ℕ × ℕ)
    (hb : wd.playerBorderPoi p = none)
    (hai : wd.aiFinishPoi o.car = none)
    (hpf : wd.playerFinishPoi p = some poi) :
    (poi.2 = 0 →
      handle_collision wd p o g = (PlayerCar.bounce wd p, o, g) ∧
      (PlayerCar.bounce wd p).speed = -p.speed) ∧
    (0 < poi.2 →
      handle_collision wd p o g =
        (PlayerCar.reset_state p, ComputerCar.advance_level o (g.stage + 1),
          GameInfo.advance_level g) ∧
      (GameInfo.advance_level g).stage = g.stage + 1 ∧
      (PlayerCar.reset_state p).x_pos = 180 ∧
      (PlayerCar.reset_state p).y_pos = 200 ∧
      (PlayerCar.reset_state p).heading = 0 ∧
      (PlayerCar.reset_state p).speed = 0 ∧
      (ComputerCar.advance_level o (g.stage + 1)).car.speed
          = o.car.max_speed + (((g.stage : ℚ) + 1) - 1) * (1/5) ∧
      (ComputerCar.advance_level o (g.stage + 1)).waypoint_index = 0 ∧
      (g.stage = 1 → (ComputerCar.advance_level o (g.stage + 1)).car.speed
          = o.car.max_speed + 1/5)) := by
  constructor
  · intro h0
    refine ⟨?_, rfl⟩
    simp [handle_collision, finish_check, hb, hai, hpf, h0]
  · intro hpos
    have h0 : ¬ poi.2 = 0 := Nat.pos_iff_ne_zero.mp hpos
    refine ⟨?_, rfl, rfl, rfl, rfl, rfl, ?_, rfl, ?_⟩
    · simp [handle_collision, finish_check, hb, hai, hpf, h0]
      rfl
    · show o.car.max_speed + (((g.stage + 1 : ℤ) : ℚ) - 1) * (1/5)
          = o.car.max_speed + (((g.stage : ℚ) + 1) - 1) * (1/5)
      push_cast
      ring
    · intro h1
      rw [h1]
      show o.car.max_speed + ((((1 : ℤ) + 1 : ℤ) : ℚ) - 1) * (1/5)
          = o.car.max_speed + 1/5
      push_cast
      ring

/-- An environment in which only the player finish overlap fires, at a point
with positive vertical coordinate. -/
def wdC2 : World := { wd0 with playerFinishPoi := fun _ => some (0, 1) }

/-- Witness for C2 from the initial program state at stage `1`. -/
theorem c2_witness :
    handle_collision wdC2 p0 o0 g0 =
      (PlayerCar.reset_state p0, ComputerCar.advance_level o0 2,
        GameInfo.advance_level g0) ∧
    (ComputerCar.advance_level o0 2).car.speed = 2 + 1/5 := by
  have h := (c2_player_finish wdC2 p0 o0 g0 (0, 1) rfl rfl rfl).2 (by norm_num)
  exact ⟨h.1, h.2.2.2.2.2.2.2.2 rfl⟩

/-- C3 (amended): an AI finish overlap (with the player finish check not
firing afterwards) resets the race state to stage `1`, not in progress, and
returns both cars to their start positions with heading `0` and speed `0`;
the AI's speed thus becomes `0` — not its initial `max_speed` — and its
waypoint index is left unchanged rather than restored to `0`. -/
theorem c3_ai_finish_reset (wd : World) (p : AbstractCar) (o : ComputerCar)
    (g : GameInfo) (v : ℕ × ℕ)
    (hai : wd.aiFinishPoi o.car = some v)
    (hpf : wd.playerFinishPoi (PlayerCar.reset_state p) = none) :
    handle_collision wd p o g =
      (PlayerCar.reset_state p, ComputerCar.reset_state o, GameInfo.reset_state g) ∧
    (GameInfo.reset_state g).stage = 1 ∧
    (GameInfo.reset_state g).in_progress = false ∧
    (PlayerCar.reset_state p).x_pos = 180 ∧ (PlayerCar.reset_state p).y_pos = 200 ∧
    (PlayerCar.reset_state p).heading = 0 ∧ (PlayerCar.reset_state p).speed = 0 ∧
    (ComputerCar.reset_state o).car.x_pos = 150 ∧
    (ComputerCar.reset_state o).car.y_pos = 200 ∧
    (ComputerCar.reset_state o).car.heading = 0 ∧
    (ComputerCar.reset_state o).car.speed = 0 ∧
    (ComputerCar.reset_state o).waypoint_index = o.waypoint_index := by
  refine ⟨?_, rfl, rfl, rfl, rfl, rfl, rfl, rfl, rfl, rfl, rfl, rfl⟩
  have hp1 : PlayerCar.reset_state
      (if (wd.playerBorderPoi p).isSome then PlayerCar.bounce wd p else p)
      = PlayerCar.reset_state p := by
    by_cases hb : (wd.playerBorderPoi p).isSome
    · rw [if_pos hb, reset_after_bounce]
    · rw [if_neg hb]
  simp only [handle_collision, hai, Option.isSome_some, if_true, hp1]
  simp [finish_check, hpf]

/-- An environment in which only the AI finish overlap fires. -/
def wd3 : World := { wd0 with aiFinishPoi := fun _ => some (0, 0) }

/-- An AI car mid-race: three waypoints already consumed. -/
def o3 : ComputerCar := { o0 with waypoint_index := 3 }

/-- C3 counterexample: after the AI finish overlap the AI car's speed is `0`
while its speed in the initial configuration (`ComputerCar.init`) is
`max_speed = 2`, and its waypoint index stays `3` instead of returning to the
initial `0` — so the cars are not restored to their full initial
configuration. -/
theorem c3_counterexample :
    (handle_collision wd3 p0 o3 g0).2.1.car.speed = 0 ∧
    (ComputerCar.init 2 4 WAYPOINTS).car.speed = 2 ∧
    (handle_collision wd3 p0 o3 g0).2.1.waypoint_index = 3 ∧
    (ComputerCar.init 2 4 WAYPOINTS).waypoint_index = 0 := by
  refine ⟨?_, rfl, ?_, rfl⟩
  · simp [handle_collision, finish_check, wd3, wd0, ComputerCar.reset_state,
      AbstractCar.reset_state]
  · simp [handle_collision, finish_check, wd3, wd0, ComputerCar.reset_state,
      AbstractCar.reset_state, o3, o0]

/-- Witness for the amended C3. -/
theorem c3_witness :
    handle_collision wd3 p0 o3 g0 =
      (PlayerCar.reset_state p0, ComputerCar.reset_state o3, GameInfo.reset_state g0) :=
  (c3_ai_finish_reset wd3 p0 o3 g0 (0, 0) rfl rfl).1

/-- C4 (amended): for the AI steering step with desired heading `D` computed
from the current waypoint, provided the raw difference `heading - D` is below
the `180`-degree wrap threshold (so the `-360` correction of the source does
not fire) and the turn rate is nonnegative: when `|heading - D| ≤ turn_speed`
one `compute_angle` call sets the heading exactly to `D`; when
`|heading - D| > turn_speed` it moves the heading by exactly `turn_speed`
toward `D` (distance to `D` shrinks by exactly `turn_speed`). -/
theorem c4_steering (wd : World) (o : ComputerCar) (tx ty : ℚ)
    (hget : o.waypoints[o.waypoint_index]? = some (tx, ty))
    (hturn : 0 ≤ o.car.turn_speed)
    (h180 : o.car.heading
        - ComputerCar.desiredDeg wd o.car.x_pos o.car.y_pos tx ty < 180) :
    (|o.car.heading - ComputerCar.desiredDeg wd o.car.x_pos o.car.y_pos tx ty|
        ≤ o.car.turn_speed →
      ((ComputerCar.compute_angle? wd o).getD o).car.heading
        = ComputerCar.desiredDeg wd o.car.x_pos o.car.y_pos tx ty) ∧
    (o.car.turn_speed
        < |o.car.heading - ComputerCar.desiredDeg wd o.car.x_pos o.car.y_pos tx ty| →
      (0 < o.car.heading - ComputerCar.desiredDeg wd o.car.x_pos o.car.y_pos tx ty →
        ((ComputerCar.compute_angle? wd o).getD o).car.heading
          = o.car.heading - o.car.turn_speed) ∧
      (o.car.heading - ComputerCar.desiredDeg wd o.car.x_pos o.car.y_pos tx ty < 0 →
        ((ComputerCar.compute_angle? wd o).getD o).car.heading
          = o.car.heading + o.car.turn_speed) ∧
      |((ComputerCar.compute_angle? wd o).getD o).car.heading
          - ComputerCar.desiredDeg wd o.car.x_pos o.car.y_pos tx ty|
        = |o.car.heading - ComputerCar.desiredDeg wd o.car.x_pos o.car.y_pos tx ty|
          - o.car.turn_speed) := by
  have hh : ((ComputerCar.compute_angle? wd o).getD o).car.heading
      = ComputerCar.steer o.car.turn_speed o.car.heading
          (ComputerCar.desiredDeg wd o.car.x_pos o.car.y_pos tx ty) := by
    rw [compute_angle?_eq wd o (tx, ty) hget]
    rfl
  constructor
  · intro hle
    rw [hh]
    exact steer_eq_desired _ _ _ h180 hle
  · intro hgt
    obtain ⟨h1, h2, h3⟩ := steer_move o.car.turn_speed o.car.heading
      (ComputerCar.desiredDeg wd o.car.x_pos o.car.y_pos tx ty) h180 hturn hgt
    exact ⟨fun hp => hh.trans (h1 hp), fun hn => hh.trans (h2 hn),
      by rw [hh]; exact h3⟩

/-- An AI car three degrees off a waypoint straight above it
(`atan 0 = 0`, so `wd0.atanDeg` is truthful at the only point used). -/
def oW : ComputerCar :=
  { car := ⟨2, 2, 4, 3, 0, 0⟩, waypoints := [(0, -5)], waypoint_index := 0 }

/-- Witness for the amended C4: heading `3`, desired heading `0`,
turn rate `4`; one `compute_angle` call lands exactly on the desired
heading. -/
theorem c4_witness :
    ((ComputerCar.compute_angle? wd0 oW).getD oW).car.heading
      = ComputerCar.desiredDeg wd0 oW.car.x_pos oW.car.y_pos 0 (-5) :=
  (c4_steering wd0 oW 0 (-5) rfl (by norm_num [oW])
    (by norm_num [oW, ComputerCar.desiredDeg, wd0])).1
    (by norm_num [oW, ComputerCar.desiredDeg, wd0])

/-- An AI car at heading `190` with a waypoint straight above it (desired
heading `0`) and the game's turn rate `4`. -/
def o190 : ComputerCar :=
  { car := ⟨2, 2, 4, 190, 0, 0⟩, waypoints := [(0, -5)], waypoint_index := 0 }

/-- C4 counterexample: desired heading `0`, heading `190`, turn rate `4`:
`|H - D| = 190 > 4`, yet `compute_angle` moves the heading to `194` — away
from the desired heading, since the source first subtracts `360` from the
difference — so the heading does not move by `turn_speed` toward `D`
(the distance to `D` grows to `194` instead of shrinking to `186`). -/
theorem c4_counterexample :
    ComputerCar.desiredDeg wd0 o190.car.x_pos o190.car.y_pos 0 (-5) = 0 ∧
    o190.car.turn_speed < |o190.car.heading - 0| ∧
    ((ComputerCar.compute_angle? wd0 o190).getD o190).car.heading = 194 ∧
    ¬ (|(194 : ℚ) - 0| = |o190.car.heading - 0| - o190.car.turn_speed) := by
  have hD : ComputerCar.desiredDeg wd0 o190.car.x_pos o190.car.y_pos 0 (-5) = 0 := by
    norm_num [ComputerCar.desiredDeg, wd0, o190]
  have habs : |o190.car.heading - (0 : ℚ)| = 190 := by
    show |(190 : ℚ) - 0| = 190
    rw [abs_of_pos (by norm_num : (0 : ℚ) < 190 - 0)]
    norm_num
  refine ⟨hD, ?_, ?_, ?_⟩
  · rw [habs]
    show (4 : ℚ) < 190
    norm_num
  · rw [compute_angle?_eq wd0 o190 (0, -5) rfl]
    show ComputerCar.steer o190.car.turn_speed o190.car.heading
        (ComputerCar.desiredDeg wd0 o190.car.x_pos o190.car.y_pos 0 (-5)) = 194
    rw [hD]
    show ComputerCar.steer 4 190 0 = 194
    simp only [ComputerCar.steer]
    rw [if_pos (by norm_num : (180 : ℚ) ≤ 190 - 0)]
    rw [if_neg (by norm_num : ¬ (0 : ℚ) < 190 - 0 - 360)]
    rw [abs_of_neg (by norm_num : (190 : ℚ) - 0 - 360 < 0)]
    rw [min_eq_left (by norm_num : (4 : ℚ) ≤ -(190 - 0 - 360))]
    norm_num
  · rw [habs]
    rw [abs_of_pos (by norm_num : (0 : ℚ) < (194 : ℚ) - 0)]
    show ¬ ((194 : ℚ) - 0 = 190 - (4 : ℚ))
    norm_num

/-- C5: the AI `update_motion` never fails (for any state, also with the
waypoint list exhausted), and whenever the waypoint index is in bounds —
which the `update_motion` guard guarantees before `compute_angle` and
`advance_waypoint` run — both of those indexing operations succeed. -/
theorem c5_total (wd : World) (o : ComputerCar) :
    (ComputerCar.update_motion? wd o).isSome = true ∧
    (o.waypoint_index < o.waypoints.length →
      (ComputerCar.compute_angle? wd o).isSome = true ∧
      (ComputerCar.advance_waypoint? wd o).isSome = true) := by
  constructor
  · obtain ⟨o', he, -, -, -, -, -⟩ := update_motion?_spec wd o
    rw [he]
    rfl
  · intro hlt
    obtain ⟨t, ht⟩ : ∃ t, o.waypoints[o.waypoint_index]? = some t :=
      ⟨_, List.getElem?_eq_getElem hlt⟩
    constructor
    · rw [compute_angle?_eq wd o t ht]
      rfl
    · obtain ⟨o', he, -, -, -⟩ := advance_waypoint?_spec wd o t ht
      rw [he]
      rfl

/-- Witness for C5 at the initial AI car (22 waypoints, index 0). -/
theorem c5_witness :
    (ComputerCar.update_motion? wd0 o0).isSome = true ∧
    (ComputerCar.compute_angle? wd0 o0).isSome = true := by
  refine ⟨(c5_total wd0 o0).1, ((c5_total wd0 o0).2 ?_).1⟩
  show o0.waypoint_index < o0.waypoints.length
  norm_num [o0, ComputerCar.init, WAYPOINTS]

/-- The player finish check either leaves the opponent untouched or advances
the AI to a new level, which zeroes the waypoint index. -/
lemma finish_check_index (wd : World) (p : AbstractCar) (o : ComputerCar)
    (g : GameInfo) :
    (finish_check wd p o g).2.1.waypoint_index = o.waypoint_index ∨
    (finish_check wd p o g).2.1.waypoint_index = 0 := by
  unfold finish_check
  cases hpf : wd.playerFinishPoi p with
  | none => exact Or.inl rfl
  | some poi =>
      by_cases h0 : poi.2 = 0
      · left
        simp [h0]
      · right
        simp [h0]
        rfl

/-- Across `handle_collision` the opponent's waypoint index is either kept or
set to `0` (by the stage-advance branch). -/
lemma handle_collision_index (wd : World) (p : AbstractCar) (o : ComputerCar)
    (g : GameInfo) :
    (handle_collision wd p o g).2.1.waypoint_index = o.waypoint_index ∨
    (handle_collision wd p o g).2.1.waypoint_index = 0 := by
  simp only [handle_collision]
  by_cases hai : (wd.aiFinishPoi o.car).isSome
  · rw [if_pos hai]
    rcases finish_check_index wd
        (PlayerCar.reset_state
          (if (wd.playerBorderPoi p).isSome then PlayerCar.bounce wd p else p))
        (ComputerCar.reset_state o) (GameInfo.reset_state g) with h | h
    · exact Or.inl (h.trans rfl)
    · exact Or.inr h
  · rw [if_neg hai]
    exact finish_check_index wd _ o g

/-- C7 (amended): across one tick of the main loop the AI's waypoint index
never decreases, except that the stage-advance branch of the collision
handler (the AI's `advance_level`) resets it to `0`. -/
theorem c7_waypoint_monotonic (wd : World) (k : Keys) (now : ℚ) (p : AbstractCar)
    (o : ComputerCar) (g : GameInfo) :
    o.waypoint_index ≤ (tick wd k now p o g).2.1.waypoint_index ∨
    (tick wd k now p o g).2.1.waypoint_index = 0 := by
  obtain ⟨o1, he, -, -, -, -, hidx⟩ := update_motion?_spec wd o
  have ht : (tick wd k now p o g).2.1.waypoint_index
      = (handle_collision wd (move_player wd k p) o1
          (if g.in_progress then g else GameInfo.start_stage now g)).2.1.waypoint_index := by
    simp only [tick, he, Option.getD_some]
    by_cases hgf : GameInfo.is_game_finished
        (handle_collision wd (move_player wd k p) o1
          (if g.in_progress then g else GameInfo.start_stage now g)).2.2 = true
    · rw [if_pos hgf]
      rfl
    · rw [if_neg hgf]
  rcases handle_collision_index wd (move_player wd k p) o1
      (if g.in_progress then g else GameInfo.start_stage now g) with h | h
  · exact Or.inl (le_trans hidx (le_of_eq (ht.trans h).symm))
  · exact Or.inr (ht.trans h)

/-- Keyboard state with no key held. -/
def k0 : Keys := ⟨false, false, false, false⟩

/-- An AI car with its waypoint list exhausted at index 1. -/
def oC7 : ComputerCar := { oEmpty with waypoint_index := 1 }

/-- A running race state at stage 1. -/
def g1 : GameInfo := { stage := 1, in_progress := true, stage_start_time := 0 }

/-- C7 counterexample: in a tick in which the player crosses the finish line
(overlap point with positive vertical coordinate), the AI's waypoint index
drops from `1` to `0` — so it is not monotonically non-decreasing across
ticks. -/
theorem c7_counterexample :
    (tick wdC2 k0 0 p0 oC7 g1).2.1.waypoint_index = 0 ∧
    oC7.waypoint_index = 1 := by
  refine ⟨?_, rfl⟩
  norm_num [tick, move_player, PlayerCar.apply_friction, AbstractCar.update_motion,
    ComputerCar.update_motion?, handle_collision, finish_check, wdC2, wd0, oC7,
    oEmpty, ComputerCar.init, p0, PlayerCar.init, g1, GameInfo.is_game_finished,
    GameInfo.advance_level, GameInfo.LEVELS, ComputerCar.advance_level,
    ComputerCar.reset_state, AbstractCar.reset_state, PlayerCar.reset_state, k0,
    GameInfo.start_stage, max_def, min_def]
